import Mathlib

/-!
Shallow embedding of the Digital Alexandria heritage data collection module
(src/data/data_collection.py) together with proofs of its specification
properties: keyword-based threat classification, significance scoring for
museum and registry payloads, the MD5-keyed deduplicating store, the
collection report, and the orchestrated full-collection run.

Modelling conventions:
  * Python floats are modelled by `ℚ`; every constant involved (5.0, 2.0,
    1.5, 0.5, 9.0, 10.0, divisions by 100) is exactly representable, so the
    bounds proved here are the bounds of the Python arithmetic.
  * The SQLite `heritage_items` table is a `List Row` in insertion order;
    `SELECT`/`UPDATE`/`INSERT` become list traversals.
  * `hashlib.md5(...).hexdigest()` is modelled by its pre-image string
    (see `hash_id`): every claim about the key is stated by the spec "up to
    hash collision", and under that proviso the key behaves exactly like the
    string `f"{name}_{location}_{source}"` it digests.
  * `json.dumps(metadata)` is deterministic for a fixed dict, so `metadata`
    is carried as an opaque serialized `String`.
-/

/-- Lower-case a string character by character, as Python `str.lower` does on
the ASCII keyword and country material involved here. -/
def toLowerStr (s : String) : String := String.mk (s.data.map Char.toLower)

/-- Test whether the pattern `kw` occurs at the start of the text (second
argument). -/
def listStartsWith : List Char → List Char → Bool
  | [], _ => true
  | _ :: _, [] => false
  | a :: as, b :: bs => a == b && listStartsWith as bs

/-- Test whether `kw` occurs contiguously inside the text, mirroring the
Python substring operator `kw in content`. -/
def hasSub (kw : List Char) : List Char → Bool
  | [] => listStartsWith kw []
  | c :: t => listStartsWith kw (c :: t) || hasSub kw t

/-- Boolean substring test on strings, `kw in s` in the Python source. -/
def occursIn (kw s : String) : Bool := hasSub kw.data s.data

/-- Propositional form of substring occurrence: `kw` occurs contiguously in
`s`. -/
def OccursIn (kw s : String) : Prop := ∃ p q, s.data = p ++ kw.data ++ q

/-- The `high_severity_keywords` list of `_assess_threat_severity`. -/
def high_severity_keywords : List String :=
  ["destroyed", "burned", "demolished", "stolen", "looted"]

/-- The `medium_severity_keywords` list of `_assess_threat_severity`. -/
def medium_severity_keywords : List String :=
  ["damaged", "vandalized", "threatened", "at risk"]

/-- `HeritageDataCollector._assess_threat_severity`: classify an article by
keyword lookup in the lower-cased concatenation of title and description,
high-severity lexicon first. -/
def assess_threat_severity (title description : String) : String :=
  let content := toLowerStr (title ++ " " ++ description)
  if high_severity_keywords.any (fun kw => occursIn kw content) then "High"
  else if medium_severity_keywords.any (fun kw => occursIn kw content) then "Medium"
  else "Low"

/-- The fields of a Metropolitan Museum object payload that the collector
reads. Python `data.get(key, '')` defaults are already applied, so absent
text fields are the empty string and absent flags are `false`. -/
structure MetObject where
  title : String
  isPublicDomain : Bool
  artistDisplayName : String
  objectDate : String
  primaryImage : String
  isOnView : Bool
  city : String
  country : String
  classification : String
  period : String
  deriving Repr, DecidableEq

/-- The `famous_artists` reference list of `_calculate_significance_score`. -/
def famous_artists : List String :=
  ["Leonardo da Vinci", "Michelangelo", "Vincent van Gogh",
   "Pablo Picasso", "Claude Monet", "Rembrandt", "Auguste Rodin"]

/-- `HeritageDataCollector._calculate_significance_score`: base 5.0, plus
2.0 for a famous artist substring match, 1.5 for an antiquity marker in the
lower-cased object date, 0.5 each for public domain, a primary image, and
being on view; clamped above at 10.0. -/
def calculate_significance_score (data : MetObject) : ℚ :=
  let score : ℚ := 5
  let score := if famous_artists.any (fun f => occursIn f data.artistDisplayName)
    then score + 2 else score
  let score := if ["bc", "century", "dynasty"].any
      (fun p => occursIn p (toLowerStr data.objectDate))
    then score + 3/2 else score
  let score := if data.isPublicDomain then score + 1/2 else score
  let score := if !data.primaryImage.isEmpty then score + 1/2 else score
  let score := if data.isOnView then score + 1/2 else score
  min score 10

/-- The `high_risk_locations` list of `_assess_threat_level`. -/
def high_risk_locations : List String :=
  ["Syria", "Iraq", "Afghanistan", "Yemen", "Libya", "Ukraine", "Myanmar", "Mali"]

/-- `HeritageDataCollector._assess_threat_level` for museum payloads. -/
def assess_threat_level (data : MetObject) : String :=
  if high_risk_locations.any
      (fun loc => occursIn (toLowerStr loc) (toLowerStr data.country)) then "High"
  else if data.isOnView then "Low"
  else "Medium"

/-- The registry significance formula of `collect_unesco_data`:
`min(9.0 + (2024 - int(site.get('date_inscribed', 2024))) / 100, 10.0)`.
The reference year 2024 is a literal in the source. -/
def unesco_significance (date_inscribed : Int) : ℚ :=
  min (9 + ((2024 : ℚ) - (date_inscribed : ℚ)) / 100) 10

/-- Modelled from the spec: the registry significance formula as the spec
words it, `min(9.0 + (current_year − inscription_year) / 100, 10.0)` where
`current_year` is the year at which the computation runs. Used to compare
the source's fixed-2024 formula against the spec's run-time-year reading. -/
def unesco_significance_spec (current_year date_inscribed : Int) : ℚ :=
  min (9 + ((current_year : ℚ) - (date_inscribed : ℚ)) / 100) 10

/-- The `HeritageItem` dataclass. `last_updated` is an abstract timestamp;
`metadata` is the serialized JSON payload (opaque to the store). -/
structure HeritageItem where
  name : String
  location : String
  type : String
  period : String
  significance_score : ℚ
  threat_level : String
  last_updated : Nat
  source : String
  metadata : String
  deriving Repr, DecidableEq

/-- The dedup pre-image built in `save_to_database`:
`item_data = f"{item.name}_{item.location}_{item.source}"`. -/
def item_data (item : HeritageItem) : String :=
  item.name ++ "_" ++ item.location ++ "_" ++ item.source

/-- The identity key `hash_id = hashlib.md5(item_data.encode()).hexdigest()`.
MD5 is modelled by its pre-image: the spec states every key property "up to
hash collision", and up to collision the hexdigest and its pre-image induce
the same equalities and the same store behaviour. -/
def hash_id (item : HeritageItem) : String := item_data item

/-- One row of the `heritage_items` SQLite table. -/
structure Row where
  name : String
  location : String
  type : String
  period : String
  significance_score : ℚ
  threat_level : String
  last_updated : Nat
  source : String
  metadata : String
  hash_id : String
  deriving Repr, DecidableEq

/-- The row built by the `INSERT INTO heritage_items` branch. -/
def mkRow (item : HeritageItem) : Row :=
  { name := item.name, location := item.location, type := item.type,
    period := item.period, significance_score := item.significance_score,
    threat_level := item.threat_level, last_updated := item.last_updated,
    source := item.source, metadata := item.metadata, hash_id := hash_id item }

/-- The `UPDATE heritage_items SET ... WHERE hash_id = ?` effect on one
matching row: only the four mutable fields change. -/
def updateRow (item : HeritageItem) (r : Row) : Row :=
  { r with
    significance_score := item.significance_score,
    threat_level := item.threat_level, last_updated := item.last_updated,
    metadata := item.metadata }

/-- `HeritageDataCollector.save_to_database`: for each item in order, compute
the identity key, update every stored row with that key if one exists
(counting the item as updated), otherwise append a fresh row (counting it as
new). Returns `(new_items, updated_items, final table)`. -/
def save_to_database : List HeritageItem → List Row → Nat × Nat × List Row
  | [], db => (0, 0, db)
  | item :: rest, db =>
    let h := hash_id item
    if db.any (fun r => r.hash_id == h) then
      let res := save_to_database rest
        (db.map (fun r => if r.hash_id == h then updateRow item r else r))
      (res.1, res.2.1 + 1, res.2.2)
    else
      let res := save_to_database rest (db ++ [mkRow item])
      (res.1 + 1, res.2.1, res.2.2)

/-- Number of stored rows carrying the identity key `h`
(`SELECT id FROM heritage_items WHERE hash_id = ?`). -/
def countKey (db : List Row) (h : String) : Nat :=
  (db.filter (fun r => r.hash_id == h)).length

/-- Well-formedness delivered by the `UNIQUE` constraint on `hash_id`: no
identity key occurs on more than one row. -/
def dbWF (db : List Row) : Prop := ∀ h : String, countKey db h ≤ 1

/-- Increment the count of `loc` in a grouped tally, first-seen order
(`GROUP BY location`). -/
def bumpCount (loc : String) : List (String × Nat) → List (String × Nat)
  | [] => [(loc, 1)]
  | p :: rest => if p.1 == loc then (p.1, p.2 + 1) :: rest else p :: bumpCount loc rest

/-- Tally of a list of location strings, groups in first-seen order. -/
def groupCounts (locs : List String) : List (String × Nat) :=
  locs.foldl (fun acc loc => bumpCount loc acc) []

/-- The `top_locations` query of `generate_collection_report`:
`SELECT location, COUNT(*) FROM heritage_items WHERE location != ''
GROUP BY location ORDER BY count DESC LIMIT 10`, with ties resolved by the
stable sort in first-seen group order. -/
def top_locations (db : List Row) : List (String × Nat) :=
  ((groupCounts ((db.filter (fun r => !(r.location == ""))).map
      (fun r => r.location))).mergeSort
    (fun a b => decide (b.2 ≤ a.2))).take 10

/-- One news article payload as read by the threat monitor. -/
structure Article where
  title : String
  description : String
  source : String
  publishedAt : String
  url : String
  deriving Repr, DecidableEq

/-- One threat incident dict built by `monitor_cultural_threats`. -/
structure Threat where
  title : String
  description : String
  source : String
  published_at : String
  url : String
  keyword : String
  severity : String
  deriving Repr, DecidableEq

/-- The threat dict constructed for one article found under one keyword. -/
def mkThreat (kw : String) (a : Article) : Threat :=
  { title := a.title, description := a.description, source := a.source,
    published_at := a.publishedAt, url := a.url, keyword := kw,
    severity := assess_threat_severity a.title a.description }

/-- The default keyword list of `monitor_cultural_threats`. -/
def default_keywords : List String :=
  ["museum destroyed", "cultural heritage damage", "art theft",
   "monument vandalized", "archaeological site damaged",
   "library burned", "statue toppled", "heritage site threatened"]

/-- `HeritageDataCollector.monitor_cultural_threats`. The configured key is
`Option String` (`None` when unset); Python's `not config.get('news_api_key')`
is true for `None` and for the empty string, in which case the function
returns `[]` before any network access. The news source is abstracted as the
oracle `fetchArticles`, which the guarded branch never consults. -/
def monitor_cultural_threats (news_api_key : Option String)
    (fetchArticles : String → List Article)
    (keywords : Option (List String)) : List Threat :=
  if news_api_key.getD "" == "" then []
  else
    (keywords.getD default_keywords).flatMap
      (fun kw => (fetchArticles kw).map (fun a => mkThreat kw a))

/-- `HeritageDataCollector.save_threats_to_database`: append-only insert of
every threat, returning the number saved and the extended table. -/
def save_threats_to_database : List Threat → List Threat → Nat × List Threat
  | [], tdb => (0, tdb)
  | t :: rest, tdb =>
    let res := save_threats_to_database rest (tdb ++ [t])
    (res.1 + 1, res.2)

/-- The run-result dict built by `run_full_collection`. -/
structure RunResults where
  sources_processed : List String
  total_items_collected : Nat
  new_items : Nat
  updated_items : Nat
  threats_detected : Nat
  errors : List String
  deriving Repr, DecidableEq

/-- `HeritageDataCollector.run_full_collection`: process the Met Museum
source, the UNESCO source, then threat monitoring, each inside its own
try/except. A source whose collect-and-save block raises contributes one
formatted error message and nothing else; a successful source appends its
label and accumulates its counts. Each source outcome is the `Except` result
of its collect call (an exception anywhere in the block surfaces here). -/
def run_full_collection (met unesco : Except String (List HeritageItem))
    (thr : Except String (List Threat))
    (db : List Row) (tdb : List Threat) : RunResults × List Row × List Threat :=
  let results : RunResults := ⟨[], 0, 0, 0, 0, []⟩
  let step1 : RunResults × List Row :=
    match met with
    | .ok items =>
      let res := save_to_database items db
      ({ results with
          sources_processed := results.sources_processed ++ ["Metropolitan Museum"],
          total_items_collected := results.total_items_collected + items.length,
          new_items := results.new_items + res.1,
          updated_items := results.updated_items + res.2.1 }, res.2.2)
    | .error e =>
      ({ results with errors := results.errors ++ ["Met Museum collection failed: " ++ e] }, db)
  let results1 := step1.1
  let db1 := step1.2
  let step2 : RunResults × List Row :=
    match unesco with
    | .ok items =>
      let res := save_to_database items db1
      ({ results1 with
          sources_processed := results1.sources_processed ++ ["UNESCO"],
          total_items_collected := results1.total_items_collected + items.length,
          new_items := results1.new_items + res.1,
          updated_items := results1.updated_items + res.2.1 }, res.2.2)
    | .error e =>
      ({ results1 with errors := results1.errors ++ ["UNESCO collection failed: " ++ e] }, db1)
  let results2 := step2.1
  let db2 := step2.2
  let step3 : RunResults × List Threat :=
    match thr with
    | .ok threats =>
      let res := save_threats_to_database threats tdb
      ({ results2 with
          sources_processed := results2.sources_processed ++ ["Threat Monitoring"],
          threats_detected := res.1 }, res.2)
    | .error e =>
      ({ results2 with errors := results2.errors ++ ["Threat monitoring failed: " ++ e] }, tdb)
  (step3.1, db2, step3.2)

/-- The error messages a run records, one per failing source, in source
order. -/
def sourceErrorMsgs (met unesco : Except String (List HeritageItem))
    (thr : Except String (List Threat)) : List String :=
  (match met with
    | .error e => ["Met Museum collection failed: " ++ e]
    | .ok _ => []) ++
  (match unesco with
    | .error e => ["UNESCO collection failed: " ++ e]
    | .ok _ => []) ++
  (match thr with
    | .error e => ["Threat monitoring failed: " ++ e]
    | .ok _ => [])

/-- The source labels a run records, one per successful source, in source
order. -/
def processedLabels (met unesco : Except String (List HeritageItem))
    (thr : Except String (List Threat)) : List String :=
  (match met with
    | .ok _ => ["Metropolitan Museum"]
    | .error _ => []) ++
  (match unesco with
    | .ok _ => ["UNESCO"]
    | .error _ => []) ++
  (match thr with
    | .ok _ => ["Threat Monitoring"]
    | .error _ => [])

/-- Total item count over the successful heritage sources of a run. -/
def collectedCount (met unesco : Except String (List HeritageItem)) : Nat :=
  (match met with
    | .ok items => items.length
    | .error _ => 0) +
  (match unesco with
    | .ok items => items.length
    | .error _ => 0)

/-- Threat count recorded by a run. -/
def detectedCount (thr : Except String (List Threat)) : Nat :=
  match thr with
  | .ok threats => threats.length
  | .error _ => 0

/-- Sample heritage item used to instantiate the proved properties. -/
def itemA : HeritageItem :=
  { name := "Mona Lisa", location := "Paris, France", type := "artwork",
    period := "Renaissance", significance_score := 6, threat_level := "Low",
    last_updated := 0, source := "Metropolitan Museum", metadata := "metaA" }

/-- Second sighting of the same logical asset as `itemA`: identical identity
triple, different mutable fields. -/
def itemB : HeritageItem :=
  { itemA with
    significance_score := 13/2, threat_level := "Medium",
    last_updated := 1, metadata := "metaB" }

/-- Item differing from `itemA` only in `name`. -/
def itemC : HeritageItem := { itemA with name := "David" }

/-- Item differing from `itemA` only in `location`. -/
def itemD : HeritageItem := { itemA with location := "Florence, Italy" }

/-- Item differing from `itemA` only in `source`. -/
def itemE : HeritageItem := { itemA with source := "UNESCO" }

/-- Sample museum payload used to instantiate the scoring bounds. -/
def metSample : MetObject :=
  { title := "Mona Lisa", isPublicDomain := true,
    artistDisplayName := "Leonardo da Vinci", objectDate := "16th century",
    primaryImage := "image.jpg", isOnView := true, city := "Paris",
    country := "France", classification := "Paintings", period := "Renaissance" }

/-- Sample stored row used to instantiate the report properties. -/
def rowSample : Row := mkRow itemA

theorem listStartsWith_iff (kw : List Char) : ∀ l : List Char,
    listStartsWith kw l = true ↔ ∃ q, l = kw ++ q := by
  induction kw with
  | nil => intro l; simp [listStartsWith]
  | cons a as ih =>
    intro l
    cases l with
    | nil => simp [listStartsWith]
    | cons b bs =>
      simp only [listStartsWith, Bool.and_eq_true, beq_iff_eq, ih, List.cons_append]
      constructor
      · rintro ⟨rfl, q, rfl⟩
        exact ⟨q, rfl⟩
      · rintro ⟨q, h⟩
        injection h with h1 h2
        exact ⟨h1.symm, q, h2⟩

theorem hasSub_iff (kw : List Char) : ∀ l : List Char,
    hasSub kw l = true ↔ ∃ p q, l = p ++ kw ++ q := by
  intro l
  induction l with
  | nil =>
    simp only [hasSub, listStartsWith_iff]
    constructor
    · rintro ⟨q, h⟩
      exact ⟨[], q, by simpa using h⟩
    · rintro ⟨p, q, h⟩
      cases p with
      | nil => exact ⟨q, by simpa using h⟩
      | cons x xs => simp at h
  | cons c t ih =>
    simp only [hasSub, Bool.or_eq_true, listStartsWith_iff, ih]
    constructor
    · rintro (⟨q, h⟩ | ⟨p, q, h⟩)
      · exact ⟨[], q, by simpa using h⟩
      · exact ⟨c :: p, q, by simp [h]⟩
    · rintro ⟨p, q, h⟩
      cases p with
      | nil => exact Or.inl ⟨q, by simpa using h⟩
      | cons x xs =>
        injection h with h1 h2
        exact Or.inr ⟨xs, q, h2⟩

theorem occursIn_iff (kw s : String) : occursIn kw s = true ↔ OccursIn kw s := by
  simp [occursIn, OccursIn, hasSub_iff]

/-- C4: threat severity is decided over the lower-cased concatenation of
title and description in strict precedence: High exactly when a
high-severity term occurs, Medium exactly when no high-severity term but
some medium-severity term occurs, Low exactly when neither occurs; in
particular an article containing both "destroyed" and "damaged" is High. -/
theorem threat_severity_precedence : ∀ title description : String,
    (assess_threat_severity title description = "High" ↔
      ∃ kw ∈ high_severity_keywords,
        OccursIn kw (toLowerStr (title ++ " " ++ description))) ∧
    (assess_threat_severity title description = "Medium" ↔
      ((¬ ∃ kw ∈ high_severity_keywords,
          OccursIn kw (toLowerStr (title ++ " " ++ description))) ∧
        ∃ kw ∈ medium_severity_keywords,
          OccursIn kw (toLowerStr (title ++ " " ++ description)))) ∧
    (assess_threat_severity title description = "Low" ↔
      ((¬ ∃ kw ∈ high_severity_keywords,
          OccursIn kw (toLowerStr (title ++ " " ++ description))) ∧
        ¬ ∃ kw ∈ medium_severity_keywords,
          OccursIn kw (toLowerStr (title ++ " " ++ description)))) ∧
    assess_threat_severity "The temple was destroyed" "and the statue was damaged" = "High" := by
  intro title description
  have hhigh : (high_severity_keywords.any
        (fun kw => occursIn kw (toLowerStr (title ++ " " ++ description)))) = true ↔
      ∃ kw ∈ high_severity_keywords,
        OccursIn kw (toLowerStr (title ++ " " ++ description)) := by
    simp [List.any_eq_true, occursIn_iff]
  have hmed : (medium_severity_keywords.any
        (fun kw => occursIn kw (toLowerStr (title ++ " " ++ description)))) = true ↔
      ∃ kw ∈ medium_severity_keywords,
        OccursIn kw (toLowerStr (title ++ " " ++ description)) := by
    simp [List.any_eq_true, occursIn_iff]
  by_cases h1 : (high_severity_keywords.any
      (fun kw => occursIn kw (toLowerStr (title ++ " " ++ description)))) = true
  · have ha : assess_threat_severity title description = "High" := by
      simp [assess_threat_severity, h1]
    rw [ha]
    refine ⟨by simp [hhigh.mp h1], ?_, ?_, by decide⟩
    · constructor
      · intro h; exact absurd h (by decide)
      · rintro ⟨hno, -⟩; exact absurd (hhigh.mp h1) hno
    · constructor
      · intro h; exact absurd h (by decide)
      · rintro ⟨hno, -⟩; exact absurd (hhigh.mp h1) hno
  · by_cases h2 : (medium_severity_keywords.any
        (fun kw => occursIn kw (toLowerStr (title ++ " " ++ description)))) = true
    · have ha : assess_threat_severity title description = "Medium" := by
        simp [assess_threat_severity, h1, h2]
      rw [ha]
      refine ⟨?_, ?_, ?_, by decide⟩
      · constructor
        · intro h; exact absurd h (by decide)
        · intro hex; exact absurd (hhigh.mpr hex) h1
      · constructor
        · intro _; exact ⟨fun hex => h1 (hhigh.mpr hex), hmed.mp h2⟩
        · intro _; rfl
      · constructor
        · intro h; exact absurd h (by decide)
        · rintro ⟨-, hno⟩; exact absurd (hmed.mp h2) hno
    · have ha : assess_threat_severity title description = "Low" := by
        simp [assess_threat_severity, h1, h2]
      rw [ha]
      refine ⟨?_, ?_, ?_, by decide⟩
      · constructor
        · intro h; exact absurd h (by decide)
        · intro hex; exact absurd (hhigh.mpr hex) h1
      · constructor
        · intro h; exact absurd h (by decide)
        · rintro ⟨-, hex⟩; exact absurd (hmed.mpr hex) h2
      · constructor
        · intro _; exact ⟨fun hex => h1 (hhigh.mpr hex), fun hex => h2 (hmed.mpr hex)⟩
        · intro _; rfl

/-- Witness for the threat severity theorem: an article mentioning both
"destroyed" and "damaged" is classified High. -/
theorem threat_severity_precedence_witness :
    assess_threat_severity "The temple was destroyed" "and the statue was damaged" = "High" :=
  (threat_severity_precedence "x" "y").2.2.2

theorem calculate_significance_score_range (data : MetObject) :
    5 ≤ calculate_significance_score data ∧ calculate_significance_score data ≤ 10 := by
  constructor
  · simp only [calculate_significance_score]
    split_ifs <;> simp [le_min_iff] <;> norm_num
  · simp only [calculate_significance_score]
    split_ifs <;> exact min_le_right _ _

theorem unesco_significance_range (y : Int) (hy : y ≤ 2924) :
    0 ≤ unesco_significance y ∧ unesco_significance y ≤ 10 := by
  unfold unesco_significance
  constructor
  · rw [le_min_iff]
    have hq : (y : ℚ) ≤ 2924 := by exact_mod_cast hy
    constructor
    · linarith
    · norm_num
  · exact min_le_right _ _

/-- C9: for every museum payload accepted by the filter, the significance
score lies in the tight interval [5, 10]: the base score is 5.0 and every
scoring rule only adds to it. -/
theorem museum_score_tight_range : ∀ data : MetObject,
    data.title ≠ "" → data.isPublicDomain = true →
    5 ≤ calculate_significance_score data ∧ calculate_significance_score data ≤ 10 :=
  fun data _ _ => calculate_significance_score_range data

/-- Witness for the tight museum score range at a concrete payload. -/
theorem museum_score_tight_range_witness :
    5 ≤ calculate_significance_score metSample ∧
    calculate_significance_score metSample ≤ 10 :=
  museum_score_tight_range metSample (by decide) rfl

/-- C3 counterexample: a registry payload whose `date_inscribed` lies beyond
the frozen reference year by more than 900 years is written with a negative
significance score, because `collect_unesco_data` clamps only from above.
At `date_inscribed = 3000` the stored score is -19/25. -/
theorem unesco_score_below_zero :
    unesco_significance 3000 < 0 ∧ unesco_significance 3000 = -19/25 := by
  norm_num [unesco_significance, min_def]

/-- C3 amended: every museum score accepted by the filter lies in [0, 10],
and every registry score lies in [0, 10] provided the inscription year is at
most 2924 (equivalently, whenever `9 + (2024 - year)/100` is nonnegative);
the code clamps only from above, so later inscription years violate the
lower bound. -/
theorem significance_scores_bounded : ∀ (data : MetObject) (y : Int),
    (data.title ≠ "" → data.isPublicDomain = true →
      0 ≤ calculate_significance_score data ∧ calculate_significance_score data ≤ 10) ∧
    (y ≤ 2924 → 0 ≤ unesco_significance y ∧ unesco_significance y ≤ 10) := by
  intro data y
  constructor
  · intro _ _
    have h := calculate_significance_score_range data
    exact ⟨le_trans (by norm_num) h.1, h.2⟩
  · exact unesco_significance_range y

/-- Witness for the amended score bounds at a concrete payload and a
concrete inscription year. -/
theorem significance_scores_bounded_witness :
    (0 ≤ calculate_significance_score metSample ∧
      calculate_significance_score metSample ≤ 10) ∧
    (0 ≤ unesco_significance 1978 ∧ unesco_significance 1978 ≤ 10) :=
  ⟨(significance_scores_bounded metSample 1978).1 (by decide) rfl,
   (significance_scores_bounded metSample 1978).2 (by decide)⟩

/-- C5 counterexample: in a run taking place in 2026 (today), the code's
registry score for a site inscribed in 1978 is 9.46, while the spec formula
instantiated with the year at which the computation runs gives 9.48; the
source hard-codes 2024 instead of the current year. -/
theorem unesco_fixed_year_counterexample :
    unesco_significance 1978 = 473/50 ∧
    unesco_significance_spec 2026 1978 = 237/25 ∧
    unesco_significance 1978 ≠ unesco_significance_spec 2026 1978 := by
  norm_num [unesco_significance, unesco_significance_spec, min_def]

/-- C5 amended: for every registry payload, the computed significance score
equals `min(9.0 + (reference_year − inscription_year) / 100, 10.0)` with the
reference year frozen at the literal 2024, regardless of when the
computation runs. -/
theorem unesco_significance_uses_2024 : ∀ date_inscribed : Int,
    unesco_significance date_inscribed = unesco_significance_spec 2024 date_inscribed := by
  intro y
  norm_num [unesco_significance, unesco_significance_spec]

theorem data_of_item_data (i : HeritageItem) :
    (item_data i).data = i.name.data ++ '_' :: (i.location.data ++ '_' :: i.source.data) := by
  have hu : ("_" : String).data = ['_'] := rfl
  simp [item_data, String.data_append, hu]

theorem hash_id_inj_name (i j : HeritageItem) (hl : i.location = j.location)
    (hs : i.source = j.source) (hn : i.name ≠ j.name) : hash_id i ≠ hash_id j := by
  intro h
  apply hn
  have hd := congrArg String.data h
  rw [hash_id, hash_id, data_of_item_data, data_of_item_data, hl, hs] at hd
  exact String.ext (List.append_cancel_right hd)

theorem hash_id_inj_location (i j : HeritageItem) (hn : i.name = j.name)
    (hs : i.source = j.source) (hl : i.location ≠ j.location) : hash_id i ≠ hash_id j := by
  intro h
  apply hl
  have hd := congrArg String.data h
  rw [hash_id, hash_id, data_of_item_data, data_of_item_data, hn, hs] at hd
  have h1 := List.append_cancel_left hd
  injection h1 with h1a h2
  exact String.ext (List.append_cancel_right h2)

theorem hash_id_inj_source (i j : HeritageItem) (hn : i.name = j.name)
    (hl : i.location = j.location) (hs : i.source ≠ j.source) : hash_id i ≠ hash_id j := by
  intro h
  apply hs
  have hd := congrArg String.data h
  rw [hash_id, hash_id, data_of_item_data, data_of_item_data, hn, hl] at hd
  have h1 := List.append_cancel_left hd
  injection h1 with h1a h2
  have h3 := List.append_cancel_left h2
  injection h3 with h3a h4
  exact String.ext h4

/-- C2: the identity key is a pure, deterministic function of the triple
(name, location, source) — equal triples give equal keys — and, up to hash
collision (modelled by the MD5 pre-image), changing exactly one of the three
components always changes the key. -/
theorem content_hash_identity : ∀ i j : HeritageItem,
    (i.name = j.name → i.location = j.location → i.source = j.source →
      hash_id i = hash_id j) ∧
    (i.location = j.location → i.source = j.source → i.name ≠ j.name →
      hash_id i ≠ hash_id j) ∧
    (i.name = j.name → i.source = j.source → i.location ≠ j.location →
      hash_id i ≠ hash_id j) ∧
    (i.name = j.name → i.location = j.location → i.source ≠ j.source →
      hash_id i ≠ hash_id j) := by
  intro i j
  refine ⟨fun h1 h2 h3 => by simp [hash_id, item_data, h1, h2, h3],
    fun hl hs hn => hash_id_inj_name i j hl hs hn,
    fun hn hs hl => hash_id_inj_location i j hn hs hl,
    fun hn hl hs => hash_id_inj_source i j hn hl hs⟩

/-- Witness for the identity key theorem: two sightings of the same asset
share a key, and varying each component of the triple alone changes it. -/
theorem content_hash_identity_witness :
    hash_id itemA = hash_id itemB ∧
    hash_id itemA ≠ hash_id itemC ∧
    hash_id itemA ≠ hash_id itemD ∧
    hash_id itemA ≠ hash_id itemE :=
  ⟨(content_hash_identity itemA itemB).1 rfl rfl rfl,
   (content_hash_identity itemA itemC).2.1 rfl rfl (by decide),
   (content_hash_identity itemA itemD).2.2.1 rfl rfl (by decide),
   (content_hash_identity itemA itemE).2.2.2 rfl rfl (by decide)⟩

theorem save_nil (db : List Row) : save_to_database [] db = (0, 0, db) := rfl

theorem save_cons_new (i : HeritageItem) (rest : List HeritageItem) (db : List Row)
    (h : db.any (fun r => r.hash_id == hash_id i) = false) :
    save_to_database (i :: rest) db =
      ((save_to_database rest (db ++ [mkRow i])).1 + 1,
       (save_to_database rest (db ++ [mkRow i])).2.1,
       (save_to_database rest (db ++ [mkRow i])).2.2) := by
  simp [save_to_database, h]

theorem save_cons_existing (i : HeritageItem) (rest : List HeritageItem) (db : List Row)
    (h : db.any (fun r => r.hash_id == hash_id i) = true) :
    save_to_database (i :: rest) db =
      ((save_to_database rest (db.map (fun r => if r.hash_id == hash_id i then updateRow i r else r))).1,
       (save_to_database rest (db.map (fun r => if r.hash_id == hash_id i then updateRow i r else r))).2.1 + 1,
       (save_to_database rest (db.map (fun r => if r.hash_id == hash_id i then updateRow i r else r))).2.2) := by
  simp [save_to_database, h]

theorem countKey_append (db1 db2 : List Row) (h : String) :
    countKey (db1 ++ db2) h = countKey db1 h + countKey db2 h := by
  simp [countKey, List.filter_append]

theorem countKey_singleton_self (i : HeritageItem) :
    countKey [mkRow i] (hash_id i) = 1 := by
  simp [countKey, mkRow]

theorem countKey_update (item : HeritageItem) (k h : String) (db : List Row) :
    countKey (db.map (fun r => if r.hash_id == k then updateRow item r else r)) h
      = countKey db h := by
  induction db with
  | nil => rfl
  | cons r rest ih =>
    have hfr : (if r.hash_id == k then updateRow item r else r).hash_id = r.hash_id := by
      by_cases hk : (r.hash_id == k) = true <;> simp [hk, updateRow]
    simp only [List.map_cons, countKey, List.filter_cons, hfr]
    by_cases hh : (r.hash_id == h) = true
    · simpa [hh, countKey] using ih
    · simpa [hh, countKey] using ih

theorem any_key_iff (db : List Row) (h : String) :
    db.any (fun r => r.hash_id == h) = true ↔ 0 < countKey db h := by
  simp [countKey, List.any_eq_true, List.length_pos, List.filter_eq_nil_iff]

theorem any_key_false (db : List Row) (h : String) :
    db.any (fun r => r.hash_id == h) = false ↔ countKey db h = 0 := by
  constructor
  · intro hf
    by_contra hne
    have hgt : 0 < countKey db h := Nat.pos_of_ne_zero hne
    rw [← any_key_iff] at hgt
    rw [hf] at hgt
    exact Bool.false_ne_true hgt
  · intro h0
    cases hx : db.any (fun r => r.hash_id == h) with
    | false => rfl
    | true =>
      have := (any_key_iff db h).mp hx
      omega

theorem update_fields (j : HeritageItem) (db : List Row) :
    ∀ r ∈ db.map (fun r => if r.hash_id == hash_id j then updateRow j r else r),
      r.hash_id = hash_id j →
      r.significance_score = j.significance_score ∧
      r.threat_level = j.threat_level ∧ r.metadata = j.metadata := by
  intro r hr hkey
  rw [List.mem_map] at hr
  obtain ⟨r0, hr0, rfl⟩ := hr
  by_cases hk : (r0.hash_id == hash_id j) = true
  · simp [hk, updateRow]
  · rw [if_neg hk] at hkey ⊢
    exact absurd hkey (by simpa using hk)

theorem countKey_after_save_single (i : HeritageItem) (db : List Row) (hwf : dbWF db) :
    countKey (save_to_database [i] db).2.2 (hash_id i) = 1 := by
  by_cases hex : db.any (fun r => r.hash_id == hash_id i) = true
  · rw [save_cons_existing i [] db hex]
    simp only [save_nil]
    rw [countKey_update]
    have hpos := (any_key_iff db (hash_id i)).mp hex
    have hle := hwf (hash_id i)
    omega
  · have hex2 : db.any (fun r => r.hash_id == hash_id i) = false := by
      cases hx : db.any (fun r => r.hash_id == hash_id i) with
      | false => rfl
      | true => exact absurd hx hex
    rw [save_cons_new i [] db hex2]
    simp only [save_nil]
    rw [countKey_append]
    rw [(any_key_false db (hash_id i)).mp hex2, countKey_singleton_self]

theorem save_single_into_key (j : HeritageItem) (db1 : List Row)
    (hpos : 0 < countKey db1 (hash_id j)) :
    save_to_database [j] db1 =
      (0, 1, db1.map (fun r => if r.hash_id == hash_id j then updateRow j r else r)) := by
  have hex : db1.any (fun r => r.hash_id == hash_id j) = true :=
    (any_key_iff db1 (hash_id j)).mpr hpos
  rw [save_cons_existing j [] db1 hex]
  simp [save_nil]

/-- C1: upsert is idempotent on the identity key. On a store whose keys are
unique (the UNIQUE constraint), saving an item and then a second item with
the same (name, location, source) triple leaves exactly one stored row for
that key; the second call reports (0 new, 1 updated); and every stored row
under that key afterwards carries the second item's significance score,
threat level and metadata. -/
theorem upsert_idempotent : ∀ (i j : HeritageItem) (db : List Row), dbWF db →
    i.name = j.name → i.location = j.location → i.source = j.source →
    countKey (save_to_database [j] (save_to_database [i] db).2.2).2.2 (hash_id j) = 1 ∧
    (save_to_database [j] (save_to_database [i] db).2.2).1 = 0 ∧
    (save_to_database [j] (save_to_database [i] db).2.2).2.1 = 1 ∧
    ∀ r ∈ (save_to_database [j] (save_to_database [i] db).2.2).2.2,
      r.hash_id = hash_id j →
      r.significance_score = j.significance_score ∧
      r.threat_level = j.threat_level ∧ r.metadata = j.metadata := by
  intro i j db hwf h1 h2 h3
  have hkey : hash_id i = hash_id j := by simp [hash_id, item_data, h1, h2, h3]
  have hone : countKey (save_to_database [i] db).2.2 (hash_id j) = 1 := by
    rw [← hkey]
    exact countKey_after_save_single i db hwf
  have hsec := save_single_into_key j (save_to_database [i] db).2.2 (by omega)
  rw [hsec]
  refine ⟨?_, rfl, rfl, ?_⟩
  · rw [countKey_update]
    exact hone
  · exact update_fields j (save_to_database [i] db).2.2

/-- Witness for upsert idempotence: the two sightings of the Mona Lisa on an
empty store. -/
theorem upsert_idempotent_witness :
    countKey (save_to_database [itemB] (save_to_database [itemA] []).2.2).2.2 (hash_id itemB) = 1 ∧
    (save_to_database [itemB] (save_to_database [itemA] []).2.2).1 = 0 ∧
    (save_to_database [itemB] (save_to_database [itemA] []).2.2).2.1 = 1 ∧
    ∀ r ∈ (save_to_database [itemB] (save_to_database [itemA] []).2.2).2.2,
      r.hash_id = hash_id itemB →
      r.significance_score = itemB.significance_score ∧
      r.threat_level = itemB.threat_level ∧ r.metadata = itemB.metadata :=
  upsert_idempotent itemA itemB [] (fun _ => by simp [countKey]) rfl rfl rfl

theorem save_counts_total (items : List HeritageItem) : ∀ db : List Row,
    (save_to_database items db).1 + (save_to_database items db).2.1 = items.length := by
  induction items with
  | nil => intro db; rfl
  | cons i rest ih =>
    intro db
    by_cases hex : db.any (fun r => r.hash_id == hash_id i) = true
    · rw [save_cons_existing i rest db hex]
      have hr := ih (db.map (fun r => if r.hash_id == hash_id i then updateRow i r else r))
      dsimp only
      simp only [List.length_cons]
      omega
    · have hex2 : db.any (fun r => r.hash_id == hash_id i) = false := by
        cases hx : db.any (fun r => r.hash_id == hash_id i) with
        | false => rfl
        | true => exact absurd hx hex
      rw [save_cons_new i rest db hex2]
      have hr := ih (db ++ [mkRow i])
      dsimp only
      simp only [List.length_cons]
      omega

theorem save_duplicate_pair (i j : HeritageItem) (db : List Row)
    (h1 : i.name = j.name) (h2 : i.location = j.location) (h3 : i.source = j.source)
    (h0 : countKey db (hash_id i) = 0) :
    (save_to_database [i, j] db).1 = 1 ∧ (save_to_database [i, j] db).2.1 = 1 := by
  have hkey : hash_id j = hash_id i := by simp [hash_id, item_data, h1, h2, h3]
  have hex2 : db.any (fun r => r.hash_id == hash_id i) = false := (any_key_false db _).mpr h0
  rw [save_cons_new i [j] db hex2]
  have hpos : 0 < countKey (db ++ [mkRow i]) (hash_id j) := by
    rw [hkey, countKey_append, h0, countKey_singleton_self]
    omega
  rw [save_single_into_key j (db ++ [mkRow i]) hpos]
  exact ⟨rfl, rfl⟩

/-- C10: for every input batch, new_items + updated_items equals the batch
length — every item is classified as exactly one of new or updated and none
is dropped — and a duplicate identity key appearing twice in one batch whose
key is absent from the store is counted once as new and once as updated. -/
theorem save_counts_partition : ∀ (items : List HeritageItem) (db : List Row) (i j : HeritageItem),
    ((save_to_database items db).1 + (save_to_database items db).2.1 = items.length) ∧
    (i.name = j.name → i.location = j.location → i.source = j.source →
      countKey db (hash_id i) = 0 →
      (save_to_database [i, j] db).1 = 1 ∧ (save_to_database [i, j] db).2.1 = 1) :=
  fun items db i j =>
    ⟨save_counts_total items db,
     fun h1 h2 h3 h0 => save_duplicate_pair i j db h1 h2 h3 h0⟩

/-- Witness for the count partition: the duplicated Mona Lisa batch on the
empty store yields one new and one updated item out of two. -/
theorem save_counts_partition_witness :
    ((save_to_database [itemA, itemB] []).1 + (save_to_database [itemA, itemB] []).2.1 = 2) ∧
    ((save_to_database [itemA, itemB] []).1 = 1 ∧ (save_to_database [itemA, itemB] []).2.1 = 1) :=
  ⟨(save_counts_partition [itemA, itemB] [] itemA itemB).1,
   (save_counts_partition [itemA, itemB] [] itemA itemB).2 rfl rfl rfl rfl⟩

theorem bumpCount_keys (loc : String) : ∀ (acc : List (String × Nat)) (p : String × Nat),
    p ∈ bumpCount loc acc → p.1 = loc ∨ p ∈ acc := by
  intro acc
  induction acc with
  | nil =>
    intro p hp
    simp [bumpCount] at hp
    left
    rw [hp]
  | cons q rest ih =>
    intro p hp
    by_cases hq : (q.1 == loc) = true
    · simp only [bumpCount, hq, if_pos] at hp
      rcases List.mem_cons.mp hp with hp | hp
      · left
        rw [hp]
        exact beq_iff_eq.mp hq
      · right
        exact List.mem_cons_of_mem _ hp
    · simp only [bumpCount, hq, if_neg] at hp
      rcases List.mem_cons.mp hp with hp | hp
      · right
        rw [hp]
        exact List.mem_cons_self _ _
      · rcases ih p hp with h | h
        · left; exact h
        · right; exact List.mem_cons_of_mem _ h

theorem foldl_bump_keys : ∀ (locs : List String) (acc : List (String × Nat)) (p : String × Nat),
    p ∈ locs.foldl (fun acc loc => bumpCount loc acc) acc → p.1 ∈ locs ∨ p ∈ acc := by
  intro locs
  induction locs with
  | nil =>
    intro acc p hp
    right
    simpa using hp
  | cons l rest ih =>
    intro acc p hp
    simp only [List.foldl_cons] at hp
    rcases ih (bumpCount l acc) p hp with h1 | h1
    · left; exact List.mem_cons_of_mem _ h1
    · rcases bumpCount_keys l acc p h1 with h2 | h2
      · left; rw [h2]; exact List.mem_cons_self _ _
      · right; exact h2

/-- C6: the report's top_locations has at most 10 entries, contains only
non-empty locations, and is sorted in descending order of count; ties are
resolved by the stable sort over the first-seen group order, so the result
is a deterministic function of the stored state. -/
theorem top_locations_props : ∀ db : List Row,
    (top_locations db).length ≤ 10 ∧
    (∀ p ∈ top_locations db, p.1 ≠ "") ∧
    List.Pairwise (fun a b : String × Nat => b.2 ≤ a.2) (top_locations db) := by
  intro db
  refine ⟨?_, ?_, ?_⟩
  · exact List.length_take_le 10 _
  · intro p hp
    have hp1 : p ∈ (groupCounts ((db.filter (fun r => !(r.location == ""))).map
        (fun r => r.location))).mergeSort (fun a b => decide (b.2 ≤ a.2)) :=
      List.take_subset _ _ hp
    have hp2 : p ∈ groupCounts ((db.filter (fun r => !(r.location == ""))).map
        (fun r => r.location)) := (List.mergeSort_perm _ _).mem_iff.mp hp1
    rcases foldl_bump_keys _ [] p hp2 with h | h
    · rcases List.mem_map.mp h with ⟨r, hr, hloc⟩
      have hne := (List.mem_filter.mp hr).2
      rw [← hloc]
      simpa using hne
    · simp at h
  · have htrans : ∀ a b c : String × Nat,
        (fun a b : String × Nat => decide (b.2 ≤ a.2)) a b = true →
        (fun a b : String × Nat => decide (b.2 ≤ a.2)) b c = true →
        (fun a b : String × Nat => decide (b.2 ≤ a.2)) a c = true := by
      intro a b c hab hbc
      simp only [decide_eq_true_eq] at hab hbc ⊢
      omega
    have htotal : ∀ a b : String × Nat,
        ((fun a b : String × Nat => decide (b.2 ≤ a.2)) a b ||
         (fun a b : String × Nat => decide (b.2 ≤ a.2)) b a) = true := by
      intro a b
      simp only [Bool.or_eq_true, decide_eq_true_eq]
      omega
    have hs := List.sorted_mergeSort htrans htotal
      (groupCounts ((db.filter (fun r => !(r.location == ""))).map (fun r => r.location)))
    have hsub := List.take_sublist 10
      ((groupCounts ((db.filter (fun r => !(r.location == ""))).map
        (fun r => r.location))).mergeSort (fun a b => decide (b.2 ≤ a.2)))
    have hp := List.Pairwise.sublist hsub hs
    exact hp.imp (fun h => of_decide_eq_true h)

/-- Witness instantiating the report properties at a concrete store. -/
theorem top_locations_props_witness : (top_locations [rowSample]).length ≤ 10 :=
  (top_locations_props [rowSample]).1

theorem save_threats_count (ts : List Threat) : ∀ tdb : List Threat,
    (save_threats_to_database ts tdb).1 = ts.length := by
  induction ts with
  | nil => intro tdb; rfl
  | cons t rest ih =>
    intro tdb
    simp [save_threats_to_database, ih]

/-- C7: with no configured news API key (or a Python-falsy empty key), the
threat-monitoring stage returns the empty threat list, for every possible
news-source oracle and keyword configuration — it never consults the news
source and raises no error. -/
theorem missing_api_key_skips_monitoring :
    ∀ (fetchArticles : String → List Article) (keywords : Option (List String)),
      monitor_cultural_threats none fetchArticles keywords = [] ∧
      monitor_cultural_threats (some "") fetchArticles keywords = [] := by
  intro f k
  constructor <;> rfl

/-- C8: per-source failure isolation in a full collection run. The run
always returns a result object; its errors list enumerates exactly the
failing sources' messages in source order, its processed-source labels are
exactly the successful sources in order (so a failure of one source never
prevents later sources from being processed), and the collected totals and
detected threat count come from exactly the successful sources. -/
theorem run_failure_isolation :
    ∀ (met unesco : Except String (List HeritageItem)) (thr : Except String (List Threat))
      (db : List Row) (tdb : List Threat),
      (run_full_collection met unesco thr db tdb).1.errors = sourceErrorMsgs met unesco thr ∧
      (run_full_collection met unesco thr db tdb).1.sources_processed = processedLabels met unesco thr ∧
      (run_full_collection met unesco thr db tdb).1.total_items_collected = collectedCount met unesco ∧
      (run_full_collection met unesco thr db tdb).1.threats_detected = detectedCount thr := by
  intro met unesco thr db tdb
  cases met <;> cases unesco <;> cases thr <;>
    simp [run_full_collection, sourceErrorMsgs, processedLabels, collectedCount,
      detectedCount, save_threats_count]
